import Mathlib

/-!
Shallow embedding of the cash-shift ledger of this repository
(`cash_service.py`, plus the order-completion cash block of
`admin_handlers.py`).  Database rows become list entries, SQLAlchemy
queries become list filters/finds, `Decimal` amounts become rationals,
and fallible operations return `Except`/`Option`.
-/

namespace CashService

/-- An order row (`models.Order`), restricted to the fields the cash
service reads or writes. -/
structure Order where
  id : Nat
  payment_method : String
  total_price : ℚ
  is_cash_turned_in : Bool
  cash_shift_id : Option Nat
  courier_id : Option Nat
  accepted_by_waiter_id : Option Nat
  deriving Repr, DecidableEq

/-- A cash-shift row (`models.CashShift`); `start_cash` is nullable in
the store, hence `Option`.  Time fields are not modelled. -/
structure CashShift where
  id : Nat
  employee_id : Nat
  start_cash : Option ℚ
  is_closed : Bool
  deriving Repr, DecidableEq

/-- A cash-transaction row (`models.CashTransaction`). -/
structure CashTransaction where
  shift_id : Nat
  amount : ℚ
  transaction_type : String
  comment : String
  deriving Repr, DecidableEq

/-- An employee row (`models.Employee`), restricted to the fields the
cash service uses. -/
structure Employee where
  id : Nat
  full_name : String
  cash_balance : ℚ
  deriving Repr, DecidableEq

/-- The backing store: the four logical tables the ledger touches. -/
structure State where
  shifts : List CashShift
  transactions : List CashTransaction
  employees : List Employee
  orders : List Order
  deriving Repr, DecidableEq

/-- `get_open_shift`: first shift of the employee that is not closed,
or `none`. -/
def get_open_shift (s : State) (employee_id : Nat) : Option CashShift :=
  s.shifts.find? (fun sh => sh.employee_id == employee_id && !sh.is_closed)

/-- `get_any_open_shift`: first open shift of anybody, or `none`. -/
def get_any_open_shift (s : State) : Option CashShift :=
  s.shifts.find? (fun sh => !sh.is_closed)

/-- `open_new_shift`: fails when the employee already has an open
shift; otherwise inserts a fresh open shift.  The database-assigned
primary key is passed in as `new_id`. -/
def open_new_shift (s : State) (employee_id : Nat) (start_cash : ℚ)
    (new_id : Nat) : Except String (State × CashShift) :=
  match get_open_shift s employee_id with
  | some _ => .error "У цього співробітника вже є відкрита зміна."
  | none =>
    let new_shift : CashShift :=
      { id := new_id, employee_id := employee_id,
        start_cash := some start_cash, is_closed := false }
    .ok ({ s with shifts := s.shifts ++ [new_shift] }, new_shift)

/-- The shift-resolution step of `link_order_to_shift`: the acting
employee's open shift when there is one, else any open shift. -/
def resolve_link_shift (s : State) (employee_id : Option Nat) :
    Option CashShift :=
  match employee_id with
  | some eid =>
    match get_open_shift s eid with
    | some sh => some sh
    | none => get_any_open_shift s
  | none => get_any_open_shift s

/-- `link_order_to_shift`: returns the (possibly) updated order object.
No-op when the order already has a linked shift; otherwise prefers the
acting employee's open shift, falls back to any open shift, and leaves
the order unlinked when no shift is open. -/
def link_order_to_shift (s : State) (order : Order)
    (employee_id : Option Nat) : Order :=
  if order.cash_shift_id.isSome then order
  else
    match resolve_link_shift s employee_id with
    | some sh => { order with cash_shift_id := some sh.id }
    | none => order

/-- `register_employee_debt`: when the order is paid in cash and the
employee exists, adds the order total to the employee's balance and
marks the order as not turned in.  Returns the updated store together
with the updated order object. -/
def register_employee_debt (s : State) (order : Order)
    (employee_id : Nat) : State × Order :=
  if order.payment_method != "cash" then (s, order)
  else
    match s.employees.find? (fun e => e.id == employee_id) with
    | none => (s, order)
    | some _ =>
      let new_employees := s.employees.map (fun e =>
        if e.id == employee_id then
          { e with cash_balance := e.cash_balance + order.total_price }
        else e)
      ({ s with employees := new_employees },
       { order with is_cash_turned_in := false })

/-- The comment string built by `process_handover` for the handover
transaction. -/
def handover_comment (full_name : String) (order_ids : List Nat) : String :=
  "Здача виручки: " ++ full_name ++ " (Зам: " ++
    String.intercalate ", " (order_ids.map toString) ++ ")"

/-- The per-order update performed inside the `process_handover` loop:
mark the order turned in and lazily link it to the cashier's shift when
it has no linked shift yet. -/
def handover_update (order_ids : List Nat) (shift_id : Nat)
    (o : Order) : Order :=
  if order_ids.contains o.id && !o.is_cash_turned_in then
    { o with is_cash_turned_in := true,
             cash_shift_id :=
               if o.cash_shift_id.isSome then o.cash_shift_id
               else some shift_id }
  else o

/-- `process_handover`: a cashier receives cash from an employee for
the given orders.  Mirrors the Python control flow: resolve the shift
(must exist and be open), resolve the employee, select the orders from
`order_ids` still not turned in (fail when none), sum their totals,
mark them turned in and lazily link them, decrease the employee's
balance clamped at zero, and append one `handover` transaction. -/
def process_handover (s : State) (cashier_shift_id : Nat)
    (employee_id : Nat) (order_ids : List Nat) :
    Except String (State × ℚ) :=
  match s.shifts.find? (fun sh => sh.id == cashier_shift_id) with
  | none => .error "Зміна касира не знайдена або закрита."
  | some shift =>
    if shift.is_closed then .error "Зміна касира не знайдена або закрита."
    else
      match s.employees.find? (fun e => e.id == employee_id) with
      | none => .error "Співробітника не знайдено."
      | some employee =>
        let orders := s.orders.filter (fun o =>
          order_ids.contains o.id && !o.is_cash_turned_in)
        if orders.isEmpty then
          .error "Немає доступних замовлень для здачі виручки."
        else
          let total_amount : ℚ := (orders.map (·.total_price)).sum
          let new_orders := s.orders.map (handover_update order_ids shift.id)
          let new_balance : ℚ :=
            if employee.cash_balance - total_amount < 0 then 0
            else employee.cash_balance - total_amount
          let new_employees := s.employees.map (fun e =>
            if e.id == employee_id then { e with cash_balance := new_balance }
            else e)
          let tx : CashTransaction :=
            { shift_id := shift.id, amount := total_amount,
              transaction_type := "handover",
              comment := handover_comment employee.full_name order_ids }
          .ok ({ s with orders := new_orders, employees := new_employees,
                        transactions := s.transactions ++ [tx] },
               total_amount)

/-- The record returned by `get_shift_statistics` (time fields are not
modelled). -/
structure ShiftStats where
  shift_id : Nat
  start_cash : ℚ
  total_sales_cash : ℚ
  total_sales_card : ℚ
  total_sales : ℚ
  service_in : ℚ
  service_out : ℚ
  handover_in : ℚ
  theoretical_cash : ℚ
  deriving Repr, DecidableEq

/-- `get_shift_statistics`: the X-report.  Returns `none` (the Python
`None`) when the shift id does not exist. -/
def get_shift_statistics (s : State) (shift_id : Nat) : Option ShiftStats :=
  match s.shifts.find? (fun sh => sh.id == shift_id) with
  | none => none
  | some shift =>
    let shift_orders := s.orders.filter (fun o =>
      o.cash_shift_id == some shift_id)
    let total_sales_cash_orders : ℚ :=
      ((shift_orders.filter (fun o => o.payment_method == "cash")).map
        (·.total_price)).sum
    let total_card_sales : ℚ :=
      ((shift_orders.filter (fun o => o.payment_method == "card")).map
        (·.total_price)).sum
    let shift_txs := s.transactions.filter (fun t => t.shift_id == shift_id)
    let service_in : ℚ :=
      ((shift_txs.filter (fun t => t.transaction_type == "in")).map
        (·.amount)).sum
    let service_out : ℚ :=
      ((shift_txs.filter (fun t => t.transaction_type == "out")).map
        (·.amount)).sum
    let handover_in : ℚ :=
      ((shift_txs.filter (fun t => t.transaction_type == "handover")).map
        (·.amount)).sum
    let total_collected_cash_orders : ℚ :=
      ((s.orders.filter (fun o =>
        o.cash_shift_id == some shift_id && o.payment_method == "cash" &&
          o.is_cash_turned_in)).map (·.total_price)).sum
    let start_cash_decimal : ℚ := shift.start_cash.getD 0
    let theoretical_cash : ℚ :=
      start_cash_decimal + total_collected_cash_orders + service_in -
        service_out
    some { shift_id := shift.id, start_cash := start_cash_decimal,
           total_sales_cash := total_sales_cash_orders,
           total_sales_card := total_card_sales,
           total_sales := total_sales_cash_orders + total_card_sales,
           service_in := service_in, service_out := service_out,
           handover_in := handover_in,
           theoretical_cash := theoretical_cash }

/-- `add_shift_transaction`: appends a transaction row.  The source
performs no validation of the amount, the shift's existence, or its
open/closed state. -/
def add_shift_transaction (s : State) (shift_id : Nat) (amount : ℚ)
    (t_type : String) (comment : String) : State :=
  { s with transactions := s.transactions ++
      [{ shift_id := shift_id, amount := amount,
         transaction_type := t_type, comment := comment }] }

/-- The order-completion cash block of `change_order_status_admin`
(`admin_handlers.py` lines 205-221): link the order to the operator's
shift, then for cash orders register a debt on the courier, else on
the waiter, else mark the cash as turned in directly.  Returns the
updated store together with the updated order object. -/
def change_order_status_admin_completed (s : State) (order : Order)
    (operator_id : Nat) : State × Order :=
  let order1 := link_order_to_shift s order (some operator_id)
  if order1.payment_method == "cash" then
    match order1.courier_id with
    | some cid => register_employee_debt s order1 cid
    | none =>
      match order1.accepted_by_waiter_id with
      | some wid => register_employee_debt s order1 wid
      | none => (s, { order1 with is_cash_turned_in := true })
  else (s, order1)

/-- A store-level ledger operation, used to speak about arbitrary
sequences of debt registrations and handovers. -/
inductive LedgerOp where
  | registerDebt (order_id : Nat) (employee_id : Nat)
  | handover (shift_id : Nat) (employee_id : Nat) (order_ids : List Nat)
  deriving Repr, DecidableEq

/-- Run one ledger operation against the store.  `registerDebt` looks
the order up by id and writes the updated order back (as the Python
session does on commit); a failing `process_handover` leaves the store
unchanged (the Python call raises before any mutation). -/
def apply_op (s : State) : LedgerOp → State
  | .registerDebt oid eid =>
    match s.orders.find? (fun o => o.id == oid) with
    | none => s
    | some o =>
      let p := register_employee_debt s o eid
      { p.1 with orders := p.1.orders.map (fun x =>
          if x.id == oid then p.2 else x) }
  | .handover sid eid oids =>
    match process_handover s sid eid oids with
    | .ok p => p.1
    | .error _ => s

/-- Run a sequence of ledger operations. -/
def apply_ops (s : State) (ops : List LedgerOp) : State :=
  ops.foldl apply_op s

/-- Every employee balance in the store is non-negative. -/
def BalancesNonneg (s : State) : Prop :=
  ∀ e ∈ s.employees, 0 ≤ e.cash_balance

/-- Every order total in the store is non-negative. -/
def TotalsNonneg (s : State) : Prop :=
  ∀ o ∈ s.orders, 0 ≤ o.total_price

/-- Modelled from the spec: `theoreticalCash = startCash +
collectedCashOrders + serviceIn − serviceOut`, with
`collectedCashOrders` the sum of totals of orders linked to the shift
that are cash-paid and turned in, and `serviceIn`/`serviceOut` the
sums of manual-in/manual-out transaction amounts of the shift.
Written from the spec's words to be compared with
`get_shift_statistics`. -/
def spec_theoretical_cash (s : State) (shift : CashShift) : ℚ :=
  let collected : ℚ := (s.orders.filterMap (fun o =>
    if o.cash_shift_id = some shift.id ∧ o.payment_method = "cash" ∧
        o.is_cash_turned_in = true then some o.total_price
    else none)).sum
  let manual_in : ℚ := (s.transactions.filterMap (fun t =>
    if t.shift_id = shift.id ∧ t.transaction_type = "in" then some t.amount
    else none)).sum
  let manual_out : ℚ := (s.transactions.filterMap (fun t =>
    if t.shift_id = shift.id ∧ t.transaction_type = "out" then some t.amount
    else none)).sum
  shift.start_cash.getD 0 + collected + manual_in - manual_out

/-! ### List helper lemmas -/

theorem find?_middle {α : Type _} (p : α → Bool) (pre post : List α) (x : α)
    (hpre : ∀ a ∈ pre, p a = false) (hx : p x = true) :
    (pre ++ x :: post).find? p = some x := by
  rw [List.find?_append]
  have h1 : pre.find? p = none := by
    rw [List.find?_eq_none]
    intro a ha
    simp [hpre a ha]
  rw [h1, List.find?_cons_of_pos _ hx]
  rfl

theorem filter_middle {α : Type _} (p : α → Bool) (pre post : List α) (x : α)
    (hpre : ∀ a ∈ pre, p a = false) (hpost : ∀ a ∈ post, p a = false)
    (hx : p x = true) :
    (pre ++ x :: post).filter p = [x] := by
  rw [List.filter_append]
  have h1 : pre.filter p = [] := by
    rw [List.filter_eq_nil_iff]
    intro a ha
    simp [hpre a ha]
  have h2 : post.filter p = [] := by
    rw [List.filter_eq_nil_iff]
    intro a ha
    simp [hpost a ha]
  rw [h1, List.filter_cons_of_pos hx, h2]
  rfl

theorem map_middle {α : Type _} (f : α → α) (pre post : List α) (x : α)
    (hpre : ∀ a ∈ pre, f a = a) (hpost : ∀ a ∈ post, f a = a) :
    (pre ++ x :: post).map f = pre ++ f x :: post := by
  rw [List.map_append, List.map_cons]
  have h1 : pre.map f = pre := by
    rw [List.map_congr_left hpre]
    exact List.map_id pre
  have h2 : post.map f = post := by
    rw [List.map_congr_left hpost]
    exact List.map_id post
  rw [h1, h2]

/-! ### Claim theorems -/

/-- C1: a cash order `O` with total `t`, handed over by employee `E`
whose balance is exactly `t` (`O` not yet turned in, unlinked), to a
cashier with open shift `sid`: `process_handover sid E [O.id]` returns
`t`, zeroes `E`'s balance, marks `O` turned in, links `O` to the shift,
and appends exactly one handover transaction of amount `t` to the
shift. -/
theorem process_handover_single_cash_order
    (s : State) (sid eid oid : Nat) (t : ℚ)
    (shift : CashShift) (E : Employee) (O : Order)
    (pre post : List Order) (epre epost : List Employee)
    (hshift : s.shifts.find? (fun sh => sh.id == sid) = some shift)
    (hopen : shift.is_closed = false)
    (horders : s.orders = pre ++ O :: post)
    (hpre : ∀ o ∈ pre, o.id ≠ oid) (hpost : ∀ o ∈ post, o.id ≠ oid)
    (hOid : O.id = oid) (_hOcash : O.payment_method = "cash")
    (hOt : O.total_price = t) (hOnotin : O.is_cash_turned_in = false)
    (hOlink : O.cash_shift_id = none)
    (hemps : s.employees = epre ++ E :: epost)
    (hepre : ∀ e ∈ epre, e.id ≠ eid) (hepost : ∀ e ∈ epost, e.id ≠ eid)
    (hEid : E.id = eid) (hEbal : E.cash_balance = t) :
    process_handover s sid eid [oid] =
      .ok ({ s with
             orders := pre ++
               { O with is_cash_turned_in := true,
                        cash_shift_id := some sid } :: post,
             employees := epre ++ { E with cash_balance := 0 } :: epost,
             transactions := s.transactions ++
               [{ shift_id := sid, amount := t,
                  transaction_type := "handover",
                  comment := handover_comment E.full_name [oid] }] }, t) := by
  have hsid : shift.id = sid := by
    have hp := List.find?_some hshift
    simpa using hp
  have hfind_emp : s.employees.find? (fun e => e.id == eid) = some E := by
    rw [hemps]
    apply find?_middle
    · intro a ha
      simp [hepre a ha]
    · simp [hEid]
  have hfilter : s.orders.filter
      (fun o => [oid].contains o.id && !o.is_cash_turned_in) = [O] := by
    rw [horders]
    apply filter_middle
    · intro a ha
      simp [hpre a ha]
    · intro a ha
      simp [hpost a ha]
    · simp [hOid, hOnotin]
  have hmap_orders : s.orders.map (handover_update [oid] sid) =
      pre ++ { O with total_price := t, is_cash_turned_in := true,
                      cash_shift_id := some sid } :: post := by
    rw [horders]
    rw [map_middle (handover_update [oid] sid) pre post O
      (by intro a ha; simp [handover_update, hpre a ha])
      (by intro a ha; simp [handover_update, hpost a ha])]
    simp [handover_update, hOid, hOnotin, hOlink, hOt]
  have hmap_emps : s.employees.map (fun e =>
      if e.id == eid then { e with cash_balance := (0 : ℚ) } else e) =
      epre ++ { E with cash_balance := 0 } :: epost := by
    rw [hemps]
    rw [map_middle _ epre epost E
      (by intro a ha; simp [hepre a ha])
      (by intro a ha; simp [hepost a ha])]
    simp [hEid]
  simp only [process_handover, hshift, hopen, hfind_emp, hfilter,
    Bool.false_eq_true, if_false, List.isEmpty_cons, List.map_cons,
    List.map_nil, List.sum_cons, List.sum_nil, hOt, hEbal, hsid,
    add_zero, sub_self, lt_self_iff_false]
  rw [hmap_orders, hmap_emps]

/-- Witness for C1 at a concrete store: the spec scenario with a cash
order of total 150 handed over by employee 7 to the cashier shift 3. -/
theorem process_handover_single_cash_order_witness :
    (⟨1, "cash", 150, false, none, some 7, none⟩ : Order).is_cash_turned_in
        = false ∧
    process_handover
      ⟨[⟨3, 9, some 500, false⟩], [], [⟨7, "Ivan Kur", 150⟩],
       [⟨1, "cash", 150, false, none, some 7, none⟩]⟩ 3 7 [1] =
      .ok (⟨[⟨3, 9, some 500, false⟩],
            [⟨3, 150, "handover", handover_comment "Ivan Kur" [1]⟩],
            [⟨7, "Ivan Kur", 0⟩],
            [⟨1, "cash", 150, true, some 3, some 7, none⟩]⟩, 150) := by
  refine ⟨rfl, ?_⟩
  have h := process_handover_single_cash_order
    ⟨[⟨3, 9, some 500, false⟩], [], [⟨7, "Ivan Kur", 150⟩],
     [⟨1, "cash", 150, false, none, some 7, none⟩]⟩ 3 7 1 150
    ⟨3, 9, some 500, false⟩ ⟨7, "Ivan Kur", 150⟩
    ⟨1, "cash", 150, false, none, some 7, none⟩ [] [] [] []
    rfl rfl rfl (by simp) (by simp) rfl rfl rfl rfl rfl rfl
    (by simp) (by simp) rfl rfl
  simpa using h

/-- Sum of `f` over a boolean filter equals the sum of a `filterMap`
with a propositionally equivalent guard. -/
theorem sum_filter_eq_sum_filterMap {α : Type _} (p : α → Bool)
    (q : α → Prop) [DecidablePred q] (f : α → ℚ) (l : List α)
    (hpq : ∀ a, p a = true ↔ q a) :
    ((l.filter p).map f).sum =
      (l.filterMap (fun a => if q a then some (f a) else none)).sum := by
  induction l with
  | nil => rfl
  | cons x xs ih =>
    rw [List.filter_cons, List.filterMap_cons]
    by_cases hx : q x
    · rw [if_pos ((hpq x).mpr hx), if_pos hx]
      simp only [List.map_cons, List.sum_cons, ih]
    · rw [if_neg (fun h => hx ((hpq x).mp h)), if_neg hx]
      exact ih

/-- C2: for every existing shift, the X-report's `theoretical_cash`
is exactly the spec formula `startCash + collectedCashOrders +
serviceIn − serviceOut` (so handover transaction amounts are not added
into it). -/
theorem get_shift_statistics_theoretical_cash
    (s : State) (sid : Nat) (shift : CashShift)
    (hfind : s.shifts.find? (fun sh => sh.id == sid) = some shift) :
    (get_shift_statistics s sid).map (·.theoretical_cash) =
      some (spec_theoretical_cash s shift) := by
  have hsid : shift.id = sid := by simpa using List.find?_some hfind
  have hcollected :
      ((s.orders.filter (fun o => o.cash_shift_id == some sid &&
          o.payment_method == "cash" && o.is_cash_turned_in)).map
        (·.total_price)).sum =
      (s.orders.filterMap (fun o =>
        if o.cash_shift_id = some shift.id ∧ o.payment_method = "cash" ∧
            o.is_cash_turned_in = true then some o.total_price
        else none)).sum := by
    apply sum_filter_eq_sum_filterMap
    intro a
    simp [hsid, and_assoc]
  have hin :
      (((s.transactions.filter (fun t => t.shift_id == sid)).filter
          (fun t => t.transaction_type == "in")).map (·.amount)).sum =
      (s.transactions.filterMap (fun t =>
        if t.shift_id = shift.id ∧ t.transaction_type = "in" then
          some t.amount
        else none)).sum := by
    rw [List.filter_filter]
    apply sum_filter_eq_sum_filterMap
    intro a
    simp [hsid, and_comm]
  have hout :
      (((s.transactions.filter (fun t => t.shift_id == sid)).filter
          (fun t => t.transaction_type == "out")).map (·.amount)).sum =
      (s.transactions.filterMap (fun t =>
        if t.shift_id = shift.id ∧ t.transaction_type = "out" then
          some t.amount
        else none)).sum := by
    rw [List.filter_filter]
    apply sum_filter_eq_sum_filterMap
    intro a
    simp [hsid, and_comm]
  simp only [get_shift_statistics, hfind, Option.map_some]
  rw [spec_theoretical_cash]
  simp only [hcollected, hin, hout]
  rfl

/-- Witness for C2 at the spec scenario: start cash 500, one turned-in
cash order of 200 linked to shift 3, one manual withdrawal of 50;
theoretical cash is 650. -/
theorem get_shift_statistics_theoretical_cash_witness :
    (⟨[⟨3, 9, some 500, false⟩], [⟨3, 50, "out", "withdraw"⟩], [],
      [⟨2, "cash", 200, true, some 3, none, none⟩]⟩ : State).shifts.find?
        (fun sh => sh.id == 3) = some ⟨3, 9, some 500, false⟩ ∧
    (get_shift_statistics
      ⟨[⟨3, 9, some 500, false⟩], [⟨3, 50, "out", "withdraw"⟩], [],
       [⟨2, "cash", 200, true, some 3, none, none⟩]⟩ 3).map
        (·.theoretical_cash) = some 650 := by
  refine ⟨rfl, ?_⟩
  have h := get_shift_statistics_theoretical_cash
    ⟨[⟨3, 9, some 500, false⟩], [⟨3, 50, "out", "withdraw"⟩], [],
     [⟨2, "cash", 200, true, some 3, none, none⟩]⟩ 3
    ⟨3, 9, some 500, false⟩ rfl
  rw [h]
  simp [spec_theoretical_cash]
  norm_num

/-- Shape of a successful `process_handover`: the result state is the
input state with the orders mapped through `handover_update`, the
employee's balance replaced by the clamped difference, and one
handover transaction appended. -/
theorem process_handover_ok_state (s : State) (sid eid : Nat)
    (oids : List Nat) (s' : State) (amt : ℚ)
    (h : process_handover s sid eid oids = .ok (s', amt)) :
    ∃ shift E,
      s.shifts.find? (fun sh => sh.id == sid) = some shift ∧
      s.employees.find? (fun e => e.id == eid) = some E ∧
      s'.shifts = s.shifts ∧
      s'.orders = s.orders.map (handover_update oids shift.id) ∧
      s'.employees = s.employees.map (fun e =>
        if e.id == eid then
          { e with cash_balance :=
              if E.cash_balance - amt < 0 then 0
              else E.cash_balance - amt }
        else e) ∧
      s'.transactions = s.transactions ++
        [{ shift_id := shift.id, amount := amt,
           transaction_type := "handover",
           comment := handover_comment E.full_name oids }] := by
  simp only [process_handover] at h
  split at h
  · exact absurd h (by simp)
  next shift hshift =>
    split at h
    · exact absurd h (by simp)
    next hopen =>
      split at h
      · exact absurd h (by simp)
      next E hemp =>
        split at h
        · exact absurd h (by simp)
        next hne =>
          rw [Except.ok.injEq, Prod.mk.injEq] at h
          obtain ⟨hs', hamt⟩ := h
          subst hs' hamt
          exact ⟨shift, E, hshift, hemp, rfl, rfl, rfl, rfl⟩

/-- `handover_update` never changes an order's total. -/
theorem handover_update_total_price (oids : List Nat) (sid : Nat)
    (o : Order) : (handover_update oids sid o).total_price = o.total_price := by
  unfold handover_update
  split <;> rfl

/-- `register_employee_debt` never changes the orders table. -/
theorem register_employee_debt_orders (s : State) (o : Order) (eid : Nat) :
    (register_employee_debt s o eid).1.orders = s.orders := by
  unfold register_employee_debt
  split
  · rfl
  · split <;> rfl

/-- `register_employee_debt` never changes the returned order's total. -/
theorem register_employee_debt_total_price (s : State) (o : Order)
    (eid : Nat) :
    (register_employee_debt s o eid).2.total_price = o.total_price := by
  unfold register_employee_debt
  split
  · rfl
  · split <;> rfl

/-- Every employee row after `register_employee_debt` is either an old
row or an old row with the order's total added to its balance. -/
theorem register_employee_debt_employees (s : State) (o : Order)
    (eid : Nat) (e : Employee)
    (he : e ∈ (register_employee_debt s o eid).1.employees) :
    e ∈ s.employees ∨ ∃ e0 ∈ s.employees,
      e = { e0 with cash_balance := e0.cash_balance + o.total_price } := by
  unfold register_employee_debt at he
  split at he
  · exact Or.inl he
  · split at he
    · exact Or.inl he
    · simp only at he
      obtain ⟨e0, he0, hmap⟩ := List.mem_map.mp he
      by_cases hid : (e0.id == eid) = true
      · rw [if_pos hid] at hmap
        exact Or.inr ⟨e0, he0, hmap.symm⟩
      · rw [if_neg hid] at hmap
        exact Or.inl (hmap ▸ he0)

/-- One ledger operation preserves non-negativity of order totals. -/
theorem apply_op_totals (s : State) (op : LedgerOp)
    (h : TotalsNonneg s) : TotalsNonneg (apply_op s op) := by
  cases op with
  | registerDebt oid eid =>
    cases hfind : s.orders.find? (fun o => o.id == oid) with
    | none => simpa only [apply_op, hfind] using h
    | some o =>
      intro y hy
      simp only [apply_op, hfind, register_employee_debt_orders] at hy
      obtain ⟨x, hx, hxy⟩ := List.mem_map.mp hy
      by_cases hid : (x.id == oid) = true
      · rw [if_pos hid] at hxy
        rw [← hxy, register_employee_debt_total_price]
        exact h o (List.mem_of_find?_eq_some hfind)
      · rw [if_neg hid] at hxy
        exact hxy ▸ h x hx
  | handover sid eid oids =>
    cases hph : process_handover s sid eid oids with
    | error e => simpa only [apply_op, hph] using h
    | ok p =>
      obtain ⟨shift, E, -, -, -, horders, -, -⟩ :=
        process_handover_ok_state s sid eid oids p.1 p.2 (by rw [hph])
      intro y hy
      simp only [apply_op, hph] at hy
      rw [horders] at hy
      obtain ⟨x, hx, hxy⟩ := List.mem_map.mp hy
      rw [← hxy, handover_update_total_price]
      exact h x hx

/-- One ledger operation preserves non-negativity of all employee
balances (given non-negative order totals). -/
theorem apply_op_balances (s : State) (op : LedgerOp)
    (hb : BalancesNonneg s) (ht : TotalsNonneg s) :
    BalancesNonneg (apply_op s op) := by
  cases op with
  | registerDebt oid eid =>
    cases hfind : s.orders.find? (fun o => o.id == oid) with
    | none => simpa only [apply_op, hfind] using hb
    | some o =>
      intro e he
      simp only [apply_op, hfind] at he
      rcases register_employee_debt_employees s o eid e he with
        h0 | ⟨e0, he0, rfl⟩
      · exact hb e h0
      · have h1 := hb e0 he0
        have h2 := ht o (List.mem_of_find?_eq_some hfind)
        simpa using add_nonneg h1 h2
  | handover sid eid oids =>
    cases hph : process_handover s sid eid oids with
    | error e => simpa only [apply_op, hph] using hb
    | ok p =>
      obtain ⟨shift, E, -, -, -, -, hemps, -⟩ :=
        process_handover_ok_state s sid eid oids p.1 p.2 (by rw [hph])
      intro e he
      simp only [apply_op, hph] at he
      rw [hemps] at he
      obtain ⟨x, hx, hxy⟩ := List.mem_map.mp he
      by_cases hid : (x.id == eid) = true
      · rw [if_pos hid] at hxy
        rw [← hxy]
        by_cases hneg : E.cash_balance - p.2 < 0
        · simp [hneg]
        · simp only [if_neg hneg]
          exact le_of_not_lt hneg
      · rw [if_neg hid] at hxy
        exact hxy ▸ hb x hx

/-- Sequences of ledger operations preserve both invariants. -/
theorem apply_ops_nonneg (s : State) (ops : List LedgerOp)
    (hb : BalancesNonneg s) (ht : TotalsNonneg s) :
    BalancesNonneg (apply_ops s ops) ∧ TotalsNonneg (apply_ops s ops) := by
  induction ops generalizing s with
  | nil => exact ⟨hb, ht⟩
  | cons op rest ih =>
    exact ih (apply_op s op) (apply_op_balances s op hb ht)
      (apply_op_totals s op ht)

/-- C3: starting from non-negative balances (and non-negative order
totals), every sequence of debt registrations and handovers keeps all
employee balances non-negative; moreover a handover whose amount
exceeds the employee's balance clamps that balance to 0 instead of
letting it go negative. -/
theorem balances_nonneg_after_ops (s : State) (ops : List LedgerOp)
    (hb : BalancesNonneg s) (ht : TotalsNonneg s) :
    BalancesNonneg (apply_ops s ops) ∧
    (∀ sid eid oids s' amt E,
      process_handover (apply_ops s ops) sid eid oids = .ok (s', amt) →
      (apply_ops s ops).employees.find? (fun e => e.id == eid) = some E →
      E.cash_balance < amt →
      ∀ e ∈ s'.employees, (e.id == eid) = true → e.cash_balance = 0) := by
  refine ⟨(apply_ops_nonneg s ops hb ht).1, ?_⟩
  intro sid eid oids s' amt E hph hfind hlt e he hid
  obtain ⟨shift, E', -, hfind', -, -, hemps, -⟩ :=
    process_handover_ok_state (apply_ops s ops) sid eid oids s' amt hph
  rw [hfind] at hfind'
  cases hfind'
  rw [hemps] at he
  obtain ⟨x, hx, hxy⟩ := List.mem_map.mp he
  by_cases hxid : (x.id == eid) = true
  · rw [if_pos hxid] at hxy
    rw [← hxy]
    simp [sub_neg.mpr hlt]
  · rw [if_neg hxid] at hxy
    exact absurd (hxy ▸ hid) hxid

/-- Witness for C3: employee 7 starts with balance 10 and hands over a
batch worth 150; after the sequence the balance is clamped to 0 and
all balances stay non-negative. -/
theorem balances_nonneg_after_ops_witness :
    BalancesNonneg
      ⟨[⟨3, 9, some 500, false⟩], [], [⟨7, "Ivan Kur", 10⟩],
       [⟨1, "cash", 150, false, none, some 7, none⟩]⟩ ∧
    BalancesNonneg
      (apply_ops
        ⟨[⟨3, 9, some 500, false⟩], [], [⟨7, "Ivan Kur", 10⟩],
         [⟨1, "cash", 150, false, none, some 7, none⟩]⟩
        [.registerDebt 1 7, .handover 3 7 [1]]) := by
  constructor
  · intro e he
    simp only [List.mem_singleton] at he
    rw [he]
    norm_num
  · refine (balances_nonneg_after_ops
      ⟨[⟨3, 9, some 500, false⟩], [], [⟨7, "Ivan Kur", 10⟩],
       [⟨1, "cash", 150, false, none, some 7, none⟩]⟩
      [.registerDebt 1 7, .handover 3 7 [1]] ?_ ?_).1
    · intro e he
      simp only [List.mem_singleton] at he
      rw [he]
      norm_num
    · intro o ho
      simp only [List.mem_singleton] at ho
      rw [ho]
      norm_num

/-- C4 counterexample: with shift 3 closed and a non-positive amount
(−5 ≤ 0), `add_shift_transaction` does not fail — it appends the
entry anyway, contradicting the claimed validation. -/
theorem add_shift_transaction_no_validation_counterexample :
    ((-5 : ℚ) ≤ 0) ∧
    ((⟨3, 9, some 500, true⟩ : CashShift).is_closed = true) ∧
    (add_shift_transaction ⟨[⟨3, 9, some 500, true⟩], [], [], []⟩ 3 (-5)
        "in" "deposit").transactions =
      [⟨3, -5, "in", "deposit"⟩] := by
  refine ⟨by norm_num, rfl, rfl⟩

/-- C4 (amended): `add_shift_transaction` performs no validation at
all — for any state, shift id, amount (including non-positive ones)
and kind it unconditionally appends the entry, and the insertion is
its only effect. -/
theorem add_shift_transaction_appends (s : State) (sid : Nat)
    (amount : ℚ) (t_type comment : String) :
    add_shift_transaction s sid amount t_type comment =
      { s with transactions := s.transactions ++
          [{ shift_id := sid, amount := amount,
             transaction_type := t_type, comment := comment }] } := rfl

/-- C5: opening a shift fails with the already-open error whenever the
employee has an open shift; otherwise it creates a shift with
`is_closed = false`, and afterwards the employee has exactly one open
shift. -/
theorem open_new_shift_at_most_one_open (s : State) (eid : Nat)
    (start_cash : ℚ) (nid : Nat) :
    (∀ sh, get_open_shift s eid = some sh →
      open_new_shift s eid start_cash nid =
        .error "У цього співробітника вже є відкрита зміна.") ∧
    (get_open_shift s eid = none →
      ∃ s' sh, open_new_shift s eid start_cash nid = .ok (s', sh) ∧
        sh.is_closed = false ∧
        (s'.shifts.filter
          (fun x => x.employee_id == eid && !x.is_closed)).length = 1) := by
  constructor
  · intro sh h
    simp [open_new_shift, h]
  · intro h
    refine ⟨{ s with shifts := s.shifts ++ [⟨nid, eid, some start_cash, false⟩] },
      ⟨nid, eid, some start_cash, false⟩, ?_, rfl, ?_⟩
    · simp [open_new_shift, h]
    · have hnil : s.shifts.filter
          (fun x => x.employee_id == eid && !x.is_closed) = [] := by
        rw [List.filter_eq_nil_iff]
        intro a ha
        have := List.find?_eq_none.mp h a ha
        simpa using this
      simp [List.filter_append, hnil]

/-- Witness for C5: opening for employee 9 (who owns open shift 3)
fails; opening for employee 7 on an empty store succeeds with exactly
one open shift. -/
theorem open_new_shift_at_most_one_open_witness :
    open_new_shift ⟨[⟨3, 9, some 500, false⟩], [], [], []⟩ 9 100 4 =
      .error "У цього співробітника вже є відкрита зміна." ∧
    (∃ s' sh, open_new_shift ⟨[], [], [], []⟩ 7 100 1 = .ok (s', sh) ∧
      sh.is_closed = false ∧
      (s'.shifts.filter
        (fun x => x.employee_id == 7 && !x.is_closed)).length = 1) := by
  constructor
  · exact (open_new_shift_at_most_one_open
      ⟨[⟨3, 9, some 500, false⟩], [], [], []⟩ 9 100 4).1
      ⟨3, 9, some 500, false⟩ rfl
  · exact (open_new_shift_at_most_one_open ⟨[], [], [], []⟩ 7 100 1).2 rfl

/-- C6: with an open cashier shift and an existing employee, a batch
in which every listed order is already turned in makes
`process_handover` fail with the no-eligible-orders error; and any
failing `process_handover` leaves the store entirely unchanged. -/
theorem process_handover_no_eligible_orders (s : State) (sid eid : Nat)
    (oids : List Nat) (shift : CashShift) (E : Employee)
    (hshift : s.shifts.find? (fun sh => sh.id == sid) = some shift)
    (hopen : shift.is_closed = false)
    (hemp : s.employees.find? (fun e => e.id == eid) = some E)
    (hall : ∀ o ∈ s.orders, o.id ∈ oids → o.is_cash_turned_in = true) :
    process_handover s sid eid oids =
      .error "Немає доступних замовлень для здачі виручки." ∧
    (∀ sid' eid' oids' msg,
      process_handover s sid' eid' oids' = .error msg →
      apply_op s (.handover sid' eid' oids') = s) := by
  constructor
  · have hfilter : s.orders.filter
        (fun o => oids.contains o.id && !o.is_cash_turned_in) = [] := by
      rw [List.filter_eq_nil_iff]
      intro o ho
      by_cases hin : o.id ∈ oids
      · simp [hall o ho hin]
      · simp [List.contains, hin]
    simp [process_handover, hshift, hopen, hemp, hfilter]
    exact hall
  · intro sid' eid' oids' msg h
    simp [apply_op, h]

/-- Witness for C6: the single listed order is already turned in, so
the handover fails and applying it as a ledger operation is the
identity on the store. -/
theorem process_handover_no_eligible_orders_witness :
    process_handover
      ⟨[⟨3, 9, some 500, false⟩], [], [⟨7, "Ivan Kur", 0⟩],
       [⟨1, "cash", 150, true, some 3, none, none⟩]⟩ 3 7 [1] =
      .error "Немає доступних замовлень для здачі виручки." ∧
    apply_op
      ⟨[⟨3, 9, some 500, false⟩], [], [⟨7, "Ivan Kur", 0⟩],
       [⟨1, "cash", 150, true, some 3, none, none⟩]⟩
      (.handover 3 7 [1]) =
      ⟨[⟨3, 9, some 500, false⟩], [], [⟨7, "Ivan Kur", 0⟩],
       [⟨1, "cash", 150, true, some 3, none, none⟩]⟩ := by
  have h := process_handover_no_eligible_orders
    ⟨[⟨3, 9, some 500, false⟩], [], [⟨7, "Ivan Kur", 0⟩],
     [⟨1, "cash", 150, true, some 3, none, none⟩]⟩ 3 7 [1]
    ⟨3, 9, some 500, false⟩ ⟨7, "Ivan Kur", 0⟩ rfl rfl rfl
    (by intro o ho hin; simp only [List.mem_singleton] at ho; rw [ho])
  exact ⟨h.1, h.2 3 7 [1] _ h.1⟩

/-- `get_open_shift` can only find a shift when some open shift
exists. -/
theorem get_open_shift_eq_none_of_no_open (s : State) (eid : Nat)
    (h : get_any_open_shift s = none) : get_open_shift s eid = none := by
  rw [get_open_shift, List.find?_eq_none]
  intro sh hsh
  have hcl := List.find?_eq_none.mp h sh hsh
  simp only [Bool.not_eq_true'] at hcl
  simp [hcl]

/-- C7: order-to-shift linking is set-once and idempotent: a linked
order is never relinked (also by the lazy link inside
`process_handover`), and linking twice yields the first call's
result. -/
theorem link_order_to_shift_idempotent (s : State) (o : Order)
    (e e' : Option Nat) :
    (∀ i, o.cash_shift_id = some i → link_order_to_shift s o e = o) ∧
    link_order_to_shift s (link_order_to_shift s o e) e' =
      link_order_to_shift s o e ∧
    (∀ i oids sid, o.cash_shift_id = some i →
      (handover_update oids sid o).cash_shift_id = some i) := by
  have hresolve_none : ∀ e0, resolve_link_shift s e0 = none →
      get_any_open_shift s = none := by
    intro e0 hsh
    rcases e0 with _ | eid
    · exact hsh
    · revert hsh
      simp only [resolve_link_shift]
      rcases hgo : get_open_shift s eid with _ | sh0
      · exact fun hsh => hsh
      · exact fun hsh => absurd hsh (by simp)
  have hresolve_of_none : ∀ e0, get_any_open_shift s = none →
      resolve_link_shift s e0 = none := by
    intro e0 hany
    rcases e0 with _ | eid
    · exact hany
    · simp only [resolve_link_shift,
        get_open_shift_eq_none_of_no_open s eid hany]
      exact hany
  refine ⟨?_, ?_, ?_⟩
  · intro i hi
    simp [link_order_to_shift, hi]
  · by_cases h0 : o.cash_shift_id.isSome
    · simp [link_order_to_shift, h0]
    · rcases hsh : resolve_link_shift s e with _ | sh
      · have hany := hresolve_none e hsh
        have hfirst : link_order_to_shift s o e = o := by
          simp [link_order_to_shift, h0, hsh]
        rw [hfirst]
        simp [link_order_to_shift, h0, hresolve_of_none e' hany]
      · have hfirst : link_order_to_shift s o e =
            { o with cash_shift_id := some sh.id } := by
          simp [link_order_to_shift, h0, hsh]
        rw [hfirst]
        simp [link_order_to_shift]
  · intro i oids sid hi
    unfold handover_update
    split
    · simp [hi]
    · exact hi

/-- Witness for C7: relinking an already linked order is a no-op,
double linking equals single linking, and the handover lazy link keeps
an existing link. -/
theorem link_order_to_shift_idempotent_witness :
    link_order_to_shift
      ⟨[⟨3, 9, some 500, false⟩], [], [], []⟩
      ⟨1, "cash", 150, false, some 5, none, none⟩ (some 9) =
      ⟨1, "cash", 150, false, some 5, none, none⟩ ∧
    link_order_to_shift ⟨[⟨3, 9, some 500, false⟩], [], [], []⟩
      (link_order_to_shift ⟨[⟨3, 9, some 500, false⟩], [], [], []⟩
        ⟨1, "cash", 150, false, none, none, none⟩ (some 9)) (some 9) =
      link_order_to_shift ⟨[⟨3, 9, some 500, false⟩], [], [], []⟩
        ⟨1, "cash", 150, false, none, none, none⟩ (some 9) ∧
    (handover_update [1] 3
      ⟨1, "cash", 150, false, some 5, none, none⟩).cash_shift_id = some 5 := by
  refine ⟨?_, ?_, ?_⟩
  · exact (link_order_to_shift_idempotent
      ⟨[⟨3, 9, some 500, false⟩], [], [], []⟩
      ⟨1, "cash", 150, false, some 5, none, none⟩ (some 9) (some 9)).1 5 rfl
  · exact (link_order_to_shift_idempotent
      ⟨[⟨3, 9, some 500, false⟩], [], [], []⟩
      ⟨1, "cash", 150, false, none, none, none⟩ (some 9) (some 9)).2.1
  · exact (link_order_to_shift_idempotent
      ⟨[⟨3, 9, some 500, false⟩], [], [], []⟩
      ⟨1, "cash", 150, false, some 5, none, none⟩ (some 9) (some 9)).2.2
      5 [1] 3 rfl

/-- C8: asking for the statistics of a shift id that does not exist
yields no report (the not-found failure signal). -/
theorem get_shift_statistics_not_found (s : State) (sid : Nat)
    (h : s.shifts.find? (fun sh => sh.id == sid) = none) :
    get_shift_statistics s sid = none := by
  simp [get_shift_statistics, h]

/-- Witness for C8 on an empty store and an unknown shift id. -/
theorem get_shift_statistics_not_found_witness :
    (⟨[⟨3, 9, some 500, false⟩], [], [], []⟩ : State).shifts.find?
      (fun sh => sh.id == 42) = none ∧
    get_shift_statistics ⟨[⟨3, 9, some 500, false⟩], [], [], []⟩ 42 = none := by
  exact ⟨rfl, get_shift_statistics_not_found
    ⟨[⟨3, 9, some 500, false⟩], [], [], []⟩ 42 rfl⟩

/-- C9: the eligibility filter of `process_handover` looks only at the
turned-in flag, never at the payment method: a card-paid order that is
not yet turned in is marked turned in, its total is returned, deducted
from the balance with clamping, and counted in the handover
transaction. -/
theorem process_handover_ignores_payment_method
    (s : State) (sid eid oid : Nat) (t : ℚ)
    (shift : CashShift) (E : Employee) (O : Order)
    (pre post : List Order) (epre epost : List Employee)
    (hshift : s.shifts.find? (fun sh => sh.id == sid) = some shift)
    (hopen : shift.is_closed = false)
    (horders : s.orders = pre ++ O :: post)
    (hpre : ∀ o ∈ pre, o.id ≠ oid) (hpost : ∀ o ∈ post, o.id ≠ oid)
    (hOid : O.id = oid) (_hOcard : O.payment_method = "card")
    (hOt : O.total_price = t) (hOnotin : O.is_cash_turned_in = false)
    (hemps : s.employees = epre ++ E :: epost)
    (hepre : ∀ e ∈ epre, e.id ≠ eid) (hepost : ∀ e ∈ epost, e.id ≠ eid)
    (hEid : E.id = eid) :
    process_handover s sid eid [oid] =
      .ok ({ s with
             orders := pre ++
               { O with is_cash_turned_in := true,
                        cash_shift_id :=
                          if O.cash_shift_id.isSome then O.cash_shift_id
                          else some sid } :: post,
             employees := epre ++
               { E with cash_balance :=
                   if E.cash_balance - t < 0 then 0
                   else E.cash_balance - t } :: epost,
             transactions := s.transactions ++
               [{ shift_id := sid, amount := t,
                  transaction_type := "handover",
                  comment := handover_comment E.full_name [oid] }] }, t) := by
  have hsid : shift.id = sid := by
    have hp := List.find?_some hshift
    simpa using hp
  have hfind_emp : s.employees.find? (fun e => e.id == eid) = some E := by
    rw [hemps]
    apply find?_middle
    · intro a ha
      simp [hepre a ha]
    · simp [hEid]
  have hfilter : s.orders.filter
      (fun o => [oid].contains o.id && !o.is_cash_turned_in) = [O] := by
    rw [horders]
    apply filter_middle
    · intro a ha
      simp [hpre a ha]
    · intro a ha
      simp [hpost a ha]
    · simp [hOid, hOnotin]
  have hmap_orders : s.orders.map (handover_update [oid] sid) =
      pre ++ { O with total_price := t, is_cash_turned_in := true,
                      cash_shift_id :=
                        if O.cash_shift_id.isSome then O.cash_shift_id
                        else some sid } :: post := by
    rw [horders]
    rw [map_middle (handover_update [oid] sid) pre post O
      (by intro a ha; simp [handover_update, hpre a ha])
      (by intro a ha; simp [handover_update, hpost a ha])]
    simp [handover_update, hOid, hOnotin, hOt]
  have hmap_emps : s.employees.map (fun e =>
      if e.id == eid then
        { e with cash_balance :=
            if E.cash_balance - t < 0 then 0 else E.cash_balance - t }
      else e) =
      epre ++ { E with cash_balance :=
        if E.cash_balance - t < 0 then 0 else E.cash_balance - t } ::
          epost := by
    rw [hemps]
    rw [map_middle _ epre epost E
      (by intro a ha; simp [hepre a ha])
      (by intro a ha; simp [hepost a ha])]
    simp [hEid]
  simp only [process_handover, hshift, hopen, hfind_emp, hfilter,
    Bool.false_eq_true, if_false, List.isEmpty_cons, List.map_cons,
    List.map_nil, List.sum_cons, List.sum_nil, hOt, hsid, add_zero]
  rw [hmap_orders, hmap_emps]

/-- Witness for C9: a card order of total 80 handed over by employee 7
whose balance is 50: it is marked turned in, linked to shift 3, the
call returns 80, and the balance is clamped to 0. -/
theorem process_handover_ignores_payment_method_witness :
    (⟨1, "card", 80, false, none, none, none⟩ : Order).payment_method
        = "card" ∧
    process_handover
      ⟨[⟨3, 9, some 500, false⟩], [], [⟨7, "Ivan Kur", 50⟩],
       [⟨1, "card", 80, false, none, none, none⟩]⟩ 3 7 [1] =
      .ok (⟨[⟨3, 9, some 500, false⟩],
            [⟨3, 80, "handover", handover_comment "Ivan Kur" [1]⟩],
            [⟨7, "Ivan Kur", 0⟩],
            [⟨1, "card", 80, true, some 3, none, none⟩]⟩, 80) := by
  refine ⟨rfl, ?_⟩
  have h := process_handover_ignores_payment_method
    ⟨[⟨3, 9, some 500, false⟩], [], [⟨7, "Ivan Kur", 50⟩],
     [⟨1, "card", 80, false, none, none, none⟩]⟩ 3 7 1 80
    ⟨3, 9, some 500, false⟩ ⟨7, "Ivan Kur", 50⟩
    ⟨1, "card", 80, false, none, none, none⟩ [] [] [] []
    rfl rfl rfl (by simp) (by simp) rfl rfl rfl rfl rfl
    (by simp) (by simp) rfl
  rw [h]
  norm_num

/-- `link_order_to_shift` only ever touches the linked-shift field. -/
theorem link_order_to_shift_fields (s : State) (o : Order)
    (e : Option Nat) :
    (link_order_to_shift s o e).payment_method = o.payment_method ∧
    (link_order_to_shift s o e).courier_id = o.courier_id ∧
    (link_order_to_shift s o e).accepted_by_waiter_id =
      o.accepted_by_waiter_id := by
  unfold link_order_to_shift
  split
  · exact ⟨rfl, rfl, rfl⟩
  · split <;> exact ⟨rfl, rfl, rfl⟩

/-- C10: a cash order completed with neither a courier nor a waiter is
marked turned in on the spot and no employee debt is registered: the
store is unchanged except that the (linked) order object comes back
with `is_cash_turned_in = true`. -/
theorem change_order_status_admin_completed_direct_cash
    (s : State) (order : Order) (operator_id : Nat)
    (hcash : order.payment_method = "cash")
    (hcour : order.courier_id = none)
    (hwait : order.accepted_by_waiter_id = none) :
    change_order_status_admin_completed s order operator_id =
      (s, { link_order_to_shift s order (some operator_id) with
            is_cash_turned_in := true }) := by
  obtain ⟨h1, h2, h3⟩ := link_order_to_shift_fields s order
    (some operator_id)
  simp only [change_order_status_admin_completed, h1, h2, h3, hcash,
    hcour, hwait]
  simp

/-- Witness for C10: a pickup cash order with no courier and no waiter
is linked to the open shift 3 and marked turned in, with no change to
the store (in particular no balance change). -/
theorem change_order_status_admin_completed_direct_cash_witness :
    (⟨1, "cash", 100, false, none, none, none⟩ : Order).courier_id
        = none ∧
    change_order_status_admin_completed
      ⟨[⟨3, 9, some 500, false⟩], [], [⟨9, "Admin", 0⟩], []⟩
      ⟨1, "cash", 100, false, none, none, none⟩ 9 =
      (⟨[⟨3, 9, some 500, false⟩], [], [⟨9, "Admin", 0⟩], []⟩,
       ⟨1, "cash", 100, true, some 3, none, none⟩) := by
  refine ⟨rfl, ?_⟩
  have h := change_order_status_admin_completed_direct_cash
    ⟨[⟨3, 9, some 500, false⟩], [], [⟨9, "Admin", 0⟩], []⟩
    ⟨1, "cash", 100, false, none, none, none⟩ 9 rfl rfl rfl
  rw [h]
  rfl

end CashService
